import Mathlib

/-!
Shallow embedding of the study-session-optimizer core.

Source of the session lifecycle: src/app/api/sessions/route.ts
(POST = start a session, PUT = complete a session).
Source of the analytics aggregation: the analytics GET route
(src/unnamed/part_002).  Schemas: src/models/StudySession.ts and the
StudyTask schema (src/unnamed/part_006).

Modelling conventions:
  - timestamps are integer milliseconds since the epoch; the server clock
    value `now` (the JS `new Date()`) is passed explicitly;
  - calendar days are UTC day indices (the date component of
    `toISOString`), hours are UTC hours; this matches the JS code under a
    zero local-time offset;
  - fractional quantities (hours, accuracy percentages) are rationals;
  - the Mongo stores are lists of records; `find?` models `findOne`
    (first match), `map`-with-`if` models saving a document by its id;
  - route handlers are modelled as `Except String` values: `.error`
    models an error JSON response (nothing is written), `.ok` carries the
    new store contents and the JSON payload.
-/

/-- A study-session record, following the StudySession schema
(models/StudySession.ts): `endTime = none` means the session is still
active; `pomodorosCompleted`, `totalMinutes` default to 0, `wasCompleted`
to false and `notes` to the empty string. -/
structure StudySession where
  id : Nat
  userId : Nat
  taskId : Nat
  startTime : Int
  endTime : Option Int
  pomodorosCompleted : Int
  totalMinutes : Int
  wasCompleted : Bool
  notes : String
deriving DecidableEq

/-- A task record, restricted to the fields the sessions and analytics
routes read or write (StudyTask schema, src/unnamed/part_006). -/
structure StudyTask where
  id : Nat
  userId : Nat
  title : String
  subject : String
  estimatedHours : ℚ
  actualHours : ℚ
deriving DecidableEq

/-- The two persisted collections the core touches. -/
structure DB where
  sessions : List StudySession
  tasks : List StudyTask
deriving DecidableEq

/-- POST handler of src/app/api/sessions/route.ts: start a session.
Checks `findOne({ userId, endTime: null })`; if an active session exists,
answers with an error (HTTP 400) and writes nothing; otherwise creates a
session with `startTime = now` and the schema defaults for the other
fields.  `newId` models the id Mongo assigns to the created document. -/
def startSession (db : DB) (userId taskId : Nat) (now : Int) (newId : Nat) :
    Except String (DB × StudySession) :=
  match db.sessions.find? (fun s => decide (s.userId = userId ∧ s.endTime = none)) with
  | some _ => .error "You already have an active session"
  | none =>
      let s : StudySession :=
        { id := newId, userId := userId, taskId := taskId, startTime := now,
          endTime := none, pomodorosCompleted := 0, totalMinutes := 0,
          wasCompleted := false, notes := "" }
      .ok ({ db with sessions := db.sessions ++ [s] }, s)

/-- The PUT handler's notes update: `if (notes) session.notes = notes;`
a missing or empty (falsy) notes argument leaves the stored notes
unchanged. -/
def notesUpdate (notes : Option String) (old : String) : String :=
  match notes with
  | some s => if s = "" then old else s
  | none => old

/-- PUT handler of src/app/api/sessions/route.ts: complete a session.
Looks the session up by `{ _id: sessionId, userId }`; if absent answers
404.  Otherwise sets `endTime = now`,
`totalMinutes = Math.floor((now - startTime) / 60000)` (Int.fdiv is
floor division, as Math.floor of a real quotient), overwrites
`pomodorosCompleted` and `wasCompleted`, updates notes only when truthy,
saves the session, and then, when `StudyTask.findById(session.taskId)` finds
the task, increments its `actualHours` by `totalMinutes / 60`. -/
def completeSession (db : DB) (userId sessionId : Nat)
    (pomodorosCompleted : Int) (wasCompleted : Bool) (notes : Option String)
    (now : Int) : Except String (DB × StudySession) :=
  match db.sessions.find? (fun s => decide (s.id = sessionId ∧ s.userId = userId)) with
  | none => .error "Session not found"
  | some session =>
      let totalMinutes := Int.fdiv (now - session.startTime) 60000
      let updated : StudySession :=
        { session with
            endTime := some now,
            pomodorosCompleted := pomodorosCompleted,
            totalMinutes := totalMinutes,
            wasCompleted := wasCompleted,
            notes := notesUpdate notes session.notes }
      let sessions1 := db.sessions.map (fun x => if x.id = sessionId then updated else x)
      let tasks1 :=
        match db.tasks.find? (fun t => decide (t.id = session.taskId)) with
        | some _ =>
            db.tasks.map (fun t =>
              if t.id = session.taskId then
                { t with actualHours := t.actualHours + (totalMinutes : ℚ) / 60 }
              else t)
        | none => db.tasks
      .ok ({ sessions := sessions1, tasks := tasks1 }, updated)

/-- Sessions of a user that are active, i.e. have `endTime = none`. -/
def activeSessionsFor (db : DB) (u : Nat) : List StudySession :=
  db.sessions.filter (fun s => decide (s.userId = u ∧ s.endTime = none))

/-- The central invariant of the lifecycle manager: every user has at
most one active session. -/
def AtMostOneActive (db : DB) : Prop :=
  ∀ u : Nat, (activeSessionsFor db u).length ≤ 1

/-! ## Analytics aggregation (the analytics GET route) -/

def msPerDay : Int := 86400000

/-- UTC calendar-day index of a timestamp (the date component of
`toISOString`). -/
def dayOf (t : Int) : Int := Int.fdiv t msPerDay

/-- Hour of day (0 to 23) of a timestamp (`getHours`, at zero offset). -/
def hourOf (t : Int) : Int := (Int.fdiv t 3600000) % 24

/-- The analytics query reads only completed sessions:
`find({ userId, endTime: { $ne: null } })`. -/
def completedSessions (db : DB) (userId : Nat) : List StudySession :=
  db.sessions.filter (fun s => decide (s.userId = userId ∧ s.endTime ≠ none))

/-- All tasks of the user: `StudyTask.find({ userId })`. -/
def userTasks (db : DB) (userId : Nat) : List StudyTask :=
  db.tasks.filter (fun t => decide (t.userId = userId))

/-- Hours contributed by one session: `session.totalMinutes / 60`. -/
def sessionHours (s : StudySession) : ℚ := (s.totalMinutes : ℚ) / 60

/-- One row of the per-task accuracy report. -/
structure TaskAccuracy where
  taskId : Nat
  title : String
  subject : String
  estimated : ℚ
  actual : ℚ
  difference : ℚ
  accuracyPercent : ℚ
deriving DecidableEq

/-- Per-task accuracy row, from the analytics route:
`difference = actual - estimated`,
`accuracyPercent = estimated > 0 ? ((estimated - abs(difference)) / estimated) * 100 : 0`,
then clamped by `Math.max(0, accuracyPercent)`. -/
def taskAccuracyOf (t : StudyTask) : TaskAccuracy :=
  let estimated := t.estimatedHours
  let actual := t.actualHours
  let difference := actual - estimated
  let accuracyPercent : ℚ :=
    if 0 < estimated then ((estimated - |difference|) / estimated) * 100 else 0
  { taskId := t.id, title := t.title, subject := t.subject,
    estimated := estimated, actual := actual, difference := difference,
    accuracyPercent := max 0 accuracyPercent }

def totalEstimated (tasks : List StudyTask) : ℚ := (tasks.map StudyTask.estimatedHours).sum

def totalActual (tasks : List StudyTask) : ℚ := (tasks.map StudyTask.actualHours).sum

/-- Overall accuracy, from the analytics route: the ratio formula on the
summed estimates and actuals.  Note the source applies no `Math.max(0, _)`
here, unlike the per-task rows. -/
def overallAccuracy (tasks : List StudyTask) : ℚ :=
  if 0 < totalEstimated tasks then
    ((totalEstimated tasks - |totalActual tasks - totalEstimated tasks|) /
      totalEstimated tasks) * 100
  else 0

/-- Accumulated hours of the sessions that started at hour `h`
(the `hourlyData` object of the analytics route). -/
def hourlyValue (sessions : List StudySession) (h : Int) : ℚ :=
  ((sessions.filter (fun s => decide (hourOf s.startTime = h))).map sessionHours).sum

/-- The keys present in `hourlyData`, in the order `Object.entries`
enumerates them: integer-like property keys are enumerated in ascending
numeric order (ECMAScript ordinary own property keys), so this is the
ascending list of hours at which at least one session started. -/
def hourlyKeys (sessions : List StudySession) : List Int :=
  ((List.range 24).map (fun n : Nat => (n : Int))).filter
    (fun h => sessions.any (fun s => decide (hourOf s.startTime = h)))

/-- One step of the most-productive-hour scan:
`if (hours > maxHours) { maxHours = hours; mostProductiveHour = hour }`. -/
def mphStep (f : Int → ℚ) (acc : Int × ℚ) (h : Int) : Int × ℚ :=
  if acc.2 < f h then (h, f h) else acc

/-- The most-productive-hour scan over `Object.entries(hourlyData)`,
starting from `mostProductiveHour = 0`, `maxHours = 0`. -/
def mphFold (sessions : List StudySession) : Int × ℚ :=
  (hourlyKeys sessions).foldl (mphStep (hourlyValue sessions)) (0, 0)

def mostProductiveHour (sessions : List StudySession) : Int := (mphFold sessions).1

/-- The final `maxHours` value of the most-productive-hour scan. -/
def hourlyMax (sessions : List StudySession) : ℚ := (mphFold sessions).2

/-- The seven day keys of the daily breakdown, oldest first: the route
builds dates `today - (6 - i)` for `i = 0 .. 6`. -/
def last7Days (now : Int) : List Int :=
  (List.range 7).map (fun i => dayOf now - (6 - (i : Int)))

/-- Folding one session into the daily mapping: the route adds
`totalMinutes / 60` to the entry of the session's date only when that
date is already a key (`hasOwnProperty`); other dates change nothing. -/
def addSessionDaily (m : List (Int × ℚ)) (s : StudySession) : List (Int × ℚ) :=
  m.map (fun p => if p.1 = dayOf s.startTime then (p.1, p.2 + sessionHours s) else p)

/-- The `dailyStudyTime` mapping: the seven keys initialized to 0, then
every session folded in. -/
def dailyStudyTime (sessions : List StudySession) (now : Int) : List (Int × ℚ) :=
  sessions.foldl addSessionDaily ((last7Days now).map (fun d => (d, (0 : ℚ))))

/-- Accumulated hours of the sessions whose start date is `d`. -/
def daySum (sessions : List StudySession) (d : Int) : ℚ :=
  ((sessions.filter (fun s => decide (dayOf s.startTime = d))).map sessionHours).sum

/-- Whether at least one session started on day `d`
(`sessions.some(s => dateOf(s.startTime) === dayStr)`). -/
def hasSessionsOn (sessions : List StudySession) (d : Int) : Bool :=
  sessions.any (fun s => decide (dayOf s.startTime = d))

/-- The streak loop of the analytics route: for `i = 0 .. 29`, a day with
sessions increments the counter; a day without sessions is skipped when
it is today (`continue`) and ends the scan otherwise (`break`).  `fuel`
is the number of loop iterations left. -/
def streakGo (sessions : List StudySession) (today : Int) : Nat → Nat → Nat → Nat
  | 0, _, acc => acc
  | fuel + 1, i, acc =>
      let day := today - (i : Int)
      if hasSessionsOn sessions day then streakGo sessions today fuel (i + 1) (acc + 1)
      else if day = today then streakGo sessions today fuel (i + 1) acc
      else acc

/-- The current streak: the loop run for 30 days starting at today. -/
def currentStreak (sessions : List StudySession) (now : Int) : Nat :=
  streakGo sessions (dayOf now) 30 0 0

/-- Pomodoros of the sessions whose start time is within the last
7 * 24 h (`startTime >= sevenDaysAgo`). -/
def weeklyPomodoros (sessions : List StudySession) (now : Int) : Int :=
  ((sessions.filter (fun s => decide (now - 7 * msPerDay ≤ s.startTime))).map
    StudySession.pomodorosCompleted).sum

/-- Subjects of the task list in first-occurrence order (the insertion
order of the reduce accumulator object). -/
def subjectsOf (tasks : List StudyTask) : List String :=
  tasks.foldl (fun acc t => if t.subject ∈ acc then acc else acc ++ [t.subject]) []

def subjectEstimated (tasks : List StudyTask) (subj : String) : ℚ :=
  ((tasks.filter (fun t => decide (t.subject = subj))).map StudyTask.estimatedHours).sum

def subjectActual (tasks : List StudyTask) (subj : String) : ℚ :=
  ((tasks.filter (fun t => decide (t.subject = subj))).map StudyTask.actualHours).sum

def subjectCount (tasks : List StudyTask) (subj : String) : Nat :=
  (tasks.filter (fun t => decide (t.subject = subj))).length

/-- Subjects with `actual > estimated * 1.2` over at least two tasks. -/
def underestimatedSubjects (tasks : List StudyTask) : List String :=
  (subjectsOf tasks).filter (fun subj =>
    decide (subjectEstimated tasks subj * (6 / 5) < subjectActual tasks subj ∧
      2 ≤ subjectCount tasks subj))

/-! Insight messages.  The apostrophes and emoji of the source literals
are omitted (only the guards and the interpolated values matter to the
verified properties). -/

def msgWeekly (n : Int) : String :=
  "You have completed " ++ toString n ++ " Pomodoros this week!"

def msgLowAccuracy : String :=
  "Your time estimates are often off. Try adding 30 percent buffer time to your estimates."

def msgHighAccuracy : String :=
  "Great job! Your time estimates are very accurate."

/-- The peak-productivity message, with the 12-hour clock conversion
`((hour + 11) % 12) + 1` and the AM/PM suffix. -/
def msgPeakHour (h : Int) : String :=
  "Your peak productivity is around " ++ toString (((h + 11) % 12) + 1) ++ " "
    ++ (if 12 ≤ h then "PM" else "AM") ++ ". Schedule important tasks then!"

def msgStreak (n : Nat) : String :=
  "You are on a " ++ toString n ++ "-day study streak!"

def msgUnderestimate (subjects : String) : String :=
  "You consistently underestimate " ++ subjects ++ " tasks. Consider adding more time."

/-- The insight pipeline, in source order.  The guard of the
peak-productivity message is the source's
`if (mostProductiveHour || mostProductiveHour === 0)`, which is true for
every value. -/
def insightsOf (sessions : List StudySession) (tasks : List StudyTask) (now : Int) :
    List String :=
  let wp := weeklyPomodoros sessions now
  let oa := overallAccuracy tasks
  let mph := mostProductiveHour sessions
  let streak := currentStreak sessions now
  let under := underestimatedSubjects tasks
  (if 0 < wp then [msgWeekly wp] else [])
    ++ (if oa < 50 then [msgLowAccuracy]
        else if 80 < oa then [msgHighAccuracy] else [])
    ++ (if mph ≠ 0 ∨ mph = 0 then [msgPeakHour mph] else [])
    ++ (if 0 < streak then [msgStreak streak] else [])
    ++ (if under ≠ [] then [msgUnderestimate (String.intercalate ", " under)] else [])

/-- `parseFloat(x.toFixed(1))`: round to one decimal digit, ties away
from the smaller value (ECMAScript toFixed picks the larger candidate on
ties). -/
def toFixed1 (q : ℚ) : ℚ := ((⌊q * 10 + 1 / 2⌋ : ℤ) : ℚ) / 10

/-- The summary block of the analytics response. -/
structure Summary where
  totalPomodoros : Int
  totalHoursStudied : ℚ
  overallAccuracy : ℚ
  currentStreak : Nat
  sessionsCount : Nat
deriving DecidableEq

/-- The parts of the analytics response the verified claims are about. -/
structure Analytics where
  summary : Summary
  taskAccuracy : List TaskAccuracy
  mostProductiveHour : Int
  dailyStudyTime : List (Int × ℚ)
  insights : List String
deriving DecidableEq

/-- The analytics GET route: a pure fold over the user's completed
sessions and tasks at server time `now`. -/
def computeAnalytics (db : DB) (userId : Nat) (now : Int) : Analytics :=
  let sessions := completedSessions db userId
  let tasks := userTasks db userId
  { summary :=
      { totalPomodoros := (sessions.map StudySession.pomodorosCompleted).sum,
        totalHoursStudied :=
          toFixed1 (((sessions.map StudySession.totalMinutes).sum : ℚ) / 60),
        overallAccuracy := toFixed1 (overallAccuracy tasks),
        currentStreak := currentStreak sessions now,
        sessionsCount := sessions.length },
    taskAccuracy := tasks.map taskAccuracyOf,
    mostProductiveHour := mostProductiveHour sessions,
    dailyStudyTime := dailyStudyTime sessions now,
    insights := insightsOf sessions tasks now }

/-! ## Claim C1: single active session per user -/

/-- C1: for every user at most one active (`endTime = none`) session
exists.  `startSession` answers the conflict error and creates nothing
whenever an active session already exists for the user; otherwise it
creates a session with `startTime = now`, `endTime = none`, returns it,
leaves the tasks untouched, and preserves the invariant. -/
theorem c1_single_active_session (db : DB) (u taskId : Nat) (now : Int) (newId : Nat)
    (hinv : AtMostOneActive db) :
    ((∃ s ∈ db.sessions, s.userId = u ∧ s.endTime = none) →
      startSession db u taskId now newId = .error "You already have an active session") ∧
    ((¬ ∃ s ∈ db.sessions, s.userId = u ∧ s.endTime = none) →
      ∃ db2 s, startSession db u taskId now newId = .ok (db2, s) ∧
        s.startTime = now ∧ s.endTime = none ∧ s.userId = u ∧ s.taskId = taskId ∧
        db2.sessions = db.sessions ++ [s] ∧ db2.tasks = db.tasks ∧
        AtMostOneActive db2) := by
  unfold startSession
  by_cases hact : ∃ s ∈ db.sessions, s.userId = u ∧ s.endTime = none
  · have hsome : (db.sessions.find?
        (fun s => decide (s.userId = u ∧ s.endTime = none))).isSome := by
      rw [List.find?_isSome]
      obtain ⟨s, hs, h1, h2⟩ := hact
      exact ⟨s, hs, by simp [h1, h2]⟩
    obtain ⟨s2, hs2⟩ := Option.isSome_iff_exists.mp hsome
    rw [hs2]
    exact ⟨fun _ => rfl, fun hn => absurd hact hn⟩
  · have hnone : db.sessions.find?
        (fun s => decide (s.userId = u ∧ s.endTime = none)) = none := by
      rw [List.find?_eq_none]
      intro x hx hpx
      exact hact ⟨x, hx, by simpa using hpx⟩
    rw [hnone]
    refine ⟨fun h => absurd h hact, fun _ => ⟨_, _, rfl, rfl, rfl, rfl, rfl, rfl, rfl, ?_⟩⟩
    intro v
    simp only [activeSessionsFor, List.filter_append, List.length_append]
    by_cases hv : v = u
    · subst hv
      have hfilter : List.filter
          (fun s => decide (s.userId = v ∧ s.endTime = none)) db.sessions = [] := by
        rw [List.filter_eq_nil_iff]
        intro x hx
        simpa using fun h1 h2 => hact ⟨x, hx, h1, h2⟩
      rw [hfilter]
      simp
    · have h1 := hinv v
      simp only [activeSessionsFor] at h1
      have hone : List.filter (fun s => decide (s.userId = v ∧ s.endTime = none))
          [({ id := newId, userId := u, taskId := taskId, startTime := now,
              endTime := none, pomodorosCompleted := 0, totalMinutes := 0,
              wasCompleted := false, notes := "" } : StudySession)] = [] := by
        simp [Ne.symm hv]
      rw [hone]
      simpa using h1

/-- Witness for C1 at a concrete input: the empty store satisfies the
invariant and has no active session, so a session is created. -/
theorem c1_witness :
    ∃ db2 s, startSession ⟨[], []⟩ 1 2 1000 3 = .ok (db2, s) ∧
      s.startTime = 1000 ∧ s.endTime = none ∧ s.userId = 1 ∧ s.taskId = 2 ∧
      db2.sessions = ([] : List StudySession) ++ [s] ∧ db2.tasks = [] ∧
      AtMostOneActive db2 :=
  (c1_single_active_session ⟨[], []⟩ 1 2 1000 3
    (fun u => by simp [activeSessionsFor])).2 (by simp)

/-! ## Claim C2: totalMinutes computation at completion -/

/-- C2 (amended): whenever the session is found, `completeSession`
succeeds and persists `totalMinutes = floor((now - startTime) / 60000)`
and `endTime = now`; there is no negativity check, so a negative clock
delta is stored as a negative `totalMinutes` rather than raising a clock
error. -/
theorem c2_totalMinutes_floor (db : DB) (u sid : Nat) (p : Int) (w : Bool)
    (n : Option String) (now : Int) (s0 : StudySession)
    (hfind : db.sessions.find?
      (fun s => decide (s.id = sid ∧ s.userId = u)) = some s0) :
    ∃ db2 out, completeSession db u sid p w n now = .ok (db2, out) ∧
      out.totalMinutes = Int.fdiv (now - s0.startTime) 60000 ∧
      out.endTime = some now ∧
      db2.sessions = db.sessions.map (fun x => if x.id = sid then out else x) := by
  unfold completeSession
  rw [hfind]
  exact ⟨_, _, rfl, rfl, rfl, rfl⟩

/-- A concrete session started at t = 120000 ms. -/
def sessC2 : StudySession :=
  { id := 5, userId := 7, taskId := 1, startTime := 120000, endTime := none,
    pomodorosCompleted := 0, totalMinutes := 0, wasCompleted := false, notes := "" }

/-- Witness for C2 at a concrete input. -/
theorem c2_witness :
    ∃ db2 out, completeSession ⟨[sessC2], []⟩ 7 5 0 true none 300000 = .ok (db2, out) ∧
      out.totalMinutes = Int.fdiv (300000 - sessC2.startTime) 60000 ∧
      out.endTime = some 300000 ∧
      db2.sessions = [sessC2].map (fun x => if x.id = 5 then out else x) :=
  c2_totalMinutes_floor ⟨[sessC2], []⟩ 7 5 0 true none 300000 sessC2 (by decide)

/-- Counterexample for C2 as stated: completing at `now = 0` a session
that started at t = 120000 ms succeeds and stores
`totalMinutes = -2 < 0`; no clock error is raised and nothing is
clamped. -/
theorem c2_counterexample :
    (completeSession ⟨[sessC2], []⟩ 7 5 0 true none 0).toOption.map
      (fun r => r.2.totalMinutes) = some (-2) := by decide

/-! ## Claim C8: completion when the referenced task is missing -/

/-- C8: if the session is found but no task with the referenced id
exists, `completeSession` still succeeds, the session's final fields are
persisted, and the task store is left entirely unchanged. -/
theorem c8_missing_task (db : DB) (u sid : Nat) (p : Int) (w : Bool)
    (n : Option String) (now : Int) (s0 : StudySession)
    (hfind : db.sessions.find?
      (fun s => decide (s.id = sid ∧ s.userId = u)) = some s0)
    (htask : db.tasks.find? (fun t => decide (t.id = s0.taskId)) = none) :
    ∃ db2 out, completeSession db u sid p w n now = .ok (db2, out) ∧
      db2.tasks = db.tasks ∧
      out.endTime = some now ∧
      out.totalMinutes = Int.fdiv (now - s0.startTime) 60000 ∧
      out.pomodorosCompleted = p ∧ out.wasCompleted = w ∧
      out.notes = notesUpdate n s0.notes ∧
      db2.sessions = db.sessions.map (fun x => if x.id = sid then out else x) := by
  unfold completeSession
  simp only [hfind, htask]
  exact ⟨_, _, rfl, rfl, rfl, rfl, rfl, rfl, rfl, rfl⟩

/-- A concrete session whose referenced task (id 9) does not exist. -/
def sessC8 : StudySession :=
  { id := 4, userId := 2, taskId := 9, startTime := 0, endTime := none,
    pomodorosCompleted := 0, totalMinutes := 0, wasCompleted := false, notes := "n" }

/-- Witness for C8 at a concrete input. -/
theorem c8_witness :
    ∃ db2 out, completeSession ⟨[sessC8], []⟩ 2 4 3 true none 60000 = .ok (db2, out) ∧
      db2.tasks = ([] : List StudyTask) ∧
      out.endTime = some 60000 ∧
      out.totalMinutes = Int.fdiv (60000 - sessC8.startTime) 60000 ∧
      out.pomodorosCompleted = 3 ∧ out.wasCompleted = true ∧
      out.notes = notesUpdate none sessC8.notes ∧
      db2.sessions = [sessC8].map (fun x => if x.id = 4 then out else x) :=
  c8_missing_task ⟨[sessC8], []⟩ 2 4 3 true none 60000 sessC8 (by decide) (by decide)

/-! ## Claim C10: notes frame at completion -/

/-- C10: when the notes argument is omitted (`none`) or the empty string
(both falsy in the source's `if (notes)` guard), the stored notes are
left unchanged, while `endTime`, `totalMinutes`, `pomodorosCompleted`
and `wasCompleted` are overwritten; the last four are overwritten for
every notes argument. -/
theorem c10_notes_frame (db : DB) (u sid : Nat) (p : Int) (w : Bool)
    (n : Option String) (now : Int) (s0 : StudySession)
    (hfind : db.sessions.find?
      (fun s => decide (s.id = sid ∧ s.userId = u)) = some s0)
    (hn : n = none ∨ n = some "") :
    (∃ db2 out, completeSession db u sid p w n now = .ok (db2, out) ∧
      out.notes = s0.notes ∧ out.endTime = some now ∧
      out.totalMinutes = Int.fdiv (now - s0.startTime) 60000 ∧
      out.pomodorosCompleted = p ∧ out.wasCompleted = w) ∧
    (∀ n2 : Option String, ∃ db2 out,
      completeSession db u sid p w n2 now = .ok (db2, out) ∧
      out.endTime = some now ∧
      out.totalMinutes = Int.fdiv (now - s0.startTime) 60000 ∧
      out.pomodorosCompleted = p ∧ out.wasCompleted = w) := by
  have hnotes : notesUpdate n s0.notes = s0.notes := by
    rcases hn with h | h <;> simp [h, notesUpdate]
  constructor
  · unfold completeSession
    rw [hfind]
    exact ⟨_, _, rfl, hnotes, rfl, rfl, rfl, rfl⟩
  · intro n2
    unfold completeSession
    rw [hfind]
    exact ⟨_, _, rfl, rfl, rfl, rfl, rfl⟩

/-- Witness for C10 at a concrete input: completing with an empty notes
argument keeps the stored notes. -/
theorem c10_witness :
    ∃ db2 out, completeSession ⟨[sessC8], []⟩ 2 4 3 true (some "") 60000 = .ok (db2, out) ∧
      out.notes = sessC8.notes ∧ out.endTime = some 60000 ∧
      out.totalMinutes = Int.fdiv (60000 - sessC8.startTime) 60000 ∧
      out.pomodorosCompleted = 3 ∧ out.wasCompleted = true :=
  (c10_notes_frame ⟨[sessC8], []⟩ 2 4 3 true (some "") 60000 sessC8
    (by decide) (Or.inr rfl)).1

/-! ## Claim C3: re-completion of a terminal session -/

/-- C3 (amended): `completeSession` does not reject an already-terminal
session: whenever the session is found, even with `endTime` already set,
the call succeeds, recomputes `endTime`/`totalMinutes`, and increments
the referenced task's `actualHours` again when the task exists. -/
theorem c3_recompletion_increments_again (db : DB) (u sid : Nat) (p : Int)
    (w : Bool) (n : Option String) (now e : Int) (s0 : StudySession) (t0 : StudyTask)
    (hfind : db.sessions.find?
      (fun s => decide (s.id = sid ∧ s.userId = u)) = some s0)
    (hterm : s0.endTime = some e)
    (htask : db.tasks.find? (fun t => decide (t.id = s0.taskId)) = some t0) :
    ∃ db2 out, completeSession db u sid p w n now = .ok (db2, out) ∧
      out.endTime = some now ∧
      db2.tasks = db.tasks.map (fun t =>
        if t.id = s0.taskId then
          { t with actualHours :=
              t.actualHours + ((Int.fdiv (now - s0.startTime) 60000 : Int) : ℚ) / 60 }
        else t) := by
  unfold completeSession
  simp only [hfind, htask]
  exact ⟨_, _, rfl, rfl, rfl⟩

/-- The task referenced by the concrete re-completion scenario. -/
def taskC3 : StudyTask :=
  { id := 1, userId := 7, title := "Essay", subject := "Math",
    estimatedHours := 2, actualHours := 0 }

/-- A concrete active session for the re-completion scenario. -/
def sessC3 : StudySession :=
  { id := 5, userId := 7, taskId := 1, startTime := 0, endTime := none,
    pomodorosCompleted := 0, totalMinutes := 0, wasCompleted := false, notes := "" }

/-- The store after completing `sessC3` at t = 30 min and then completing
the very same session id again at t = 60 min. -/
def afterTwoCompletions : Except String DB :=
  (completeSession ⟨[sessC3], [taskC3]⟩ 7 5 1 true none 1800000).bind (fun r =>
    (completeSession r.1 7 5 1 true none 3600000).map (fun r2 => r2.1))

/-- Counterexample for C3 as stated: the first completion stores
`actualHours = 1/2` for the task; re-completing the same (now terminal)
session succeeds and raises `actualHours` to `3/2`, incrementing the
task a second time. -/
theorem c3_counterexample :
    (completeSession ⟨[sessC3], [taskC3]⟩ 7 5 1 true none 1800000).toOption.map
        (fun r => r.1.tasks.map (fun t => t.actualHours)) = some [1 / 2] ∧
    afterTwoCompletions.toOption.map
        (fun db => db.tasks.map (fun t => t.actualHours)) = some [3 / 2] := by
  constructor
  · simp [completeSession, sessC3, taskC3, notesUpdate, Except.toOption]
    norm_num
  · simp [afterTwoCompletions, completeSession, sessC3, taskC3, notesUpdate,
      Except.bind, Except.map, Except.toOption]
    norm_num

/-- The terminal session produced by the first completion of `sessC3`. -/
def sessC3done : StudySession :=
  { id := 5, userId := 7, taskId := 1, startTime := 0, endTime := some 1800000,
    pomodorosCompleted := 1, totalMinutes := 30, wasCompleted := true, notes := "" }

/-- The task after the first completion credited half an hour. -/
def taskC3half : StudyTask :=
  { id := 1, userId := 7, title := "Essay", subject := "Math",
    estimatedHours := 2, actualHours := 1 / 2 }

/-- Witness for C3 (amended) at a concrete input: re-completing the
terminal `sessC3done` is accepted and increments the task again. -/
theorem c3_witness :
    ∃ db2 out, completeSession ⟨[sessC3done], [taskC3half]⟩ 7 5 1 true none 3600000
        = .ok (db2, out) ∧
      out.endTime = some 3600000 ∧
      db2.tasks = [taskC3half].map (fun t =>
        if t.id = sessC3done.taskId then
          { t with actualHours :=
              t.actualHours + ((Int.fdiv (3600000 - sessC3done.startTime) 60000 : Int) : ℚ) / 60 }
        else t) :=
  c3_recompletion_increments_again ⟨[sessC3done], [taskC3half]⟩ 7 5 1 true none
    3600000 1800000 sessC3done taskC3half (by decide) rfl
    (by simp [sessC3done, taskC3half])

/-! ## Claim C4: accuracy formulas -/

/-- The per-task accuracy formula exactly as the claim words it:
`max(0, ((estimated - abs(actual - estimated)) / estimated) * 100)` when
the estimate is positive, else 0. -/
def specAccuracyPercent (estimated actual : ℚ) : ℚ :=
  if 0 < estimated then
    max 0 (((estimated - |actual - estimated|) / estimated) * 100)
  else 0

/-- The overall accuracy as the claim words it: the same (floored)
formula applied to the summed estimates and actuals. -/
def claimOverallAccuracy (tasks : List StudyTask) : ℚ :=
  specAccuracyPercent (totalEstimated tasks) (totalActual tasks)

/-- C4 (amended): each per-task row reports
`difference = actual - estimated` and an accuracy percent equal to the
claimed floored formula; the overall accuracy applies the same ratio
formula to the summed estimates and actuals but without the
`max(0, _)` floor, so it can be negative. -/
theorem c4_accuracy_formulas :
    (∀ t : StudyTask,
      (taskAccuracyOf t).difference = t.actualHours - t.estimatedHours ∧
      (taskAccuracyOf t).accuracyPercent =
        specAccuracyPercent t.estimatedHours t.actualHours) ∧
    (∀ db : DB, ∀ u : Nat, ∀ now : Int,
      (computeAnalytics db u now).taskAccuracy = (userTasks db u).map taskAccuracyOf) ∧
    (∀ tasks : List StudyTask, 0 < totalEstimated tasks →
      overallAccuracy tasks =
        ((totalEstimated tasks - |totalActual tasks - totalEstimated tasks|) /
          totalEstimated tasks) * 100) := by
  refine ⟨fun t => ⟨rfl, ?_⟩, fun db u now => rfl, fun tasks h => ?_⟩
  · unfold taskAccuracyOf specAccuracyPercent
    by_cases h : 0 < t.estimatedHours <;> simp [h]
  · unfold overallAccuracy
    rw [if_pos h]

/-- The concrete task of the spec's own example: estimated 10 h, actual
25 h. -/
def taskC4 : StudyTask :=
  { id := 3, userId := 1, title := "Lab", subject := "Physics",
    estimatedHours := 10, actualHours := 25 }

/-- Counterexample for C4 as stated: on a single task with estimate 10
and actual 25 the code's overall accuracy is -50, while the claimed
floored formula gives 0. -/
theorem c4_counterexample :
    overallAccuracy [taskC4] = -50 ∧ claimOverallAccuracy [taskC4] = 0 ∧
    overallAccuracy [taskC4] ≠ claimOverallAccuracy [taskC4] := by
  have h1 : overallAccuracy [taskC4] = -50 := by
    simp [overallAccuracy, totalEstimated, totalActual, taskC4]
    norm_num
  have h2 : claimOverallAccuracy [taskC4] = 0 := by
    simp [claimOverallAccuracy, specAccuracyPercent, totalEstimated, totalActual, taskC4]
    norm_num
  exact ⟨h1, h2, by rw [h1, h2]; norm_num⟩

/-- Witness for C4 (amended) at a concrete input: the unfloored overall
formula evaluates to -50 on `taskC4`. -/
theorem c4_witness :
    0 < totalEstimated [taskC4] ∧
    overallAccuracy [taskC4] =
      ((totalEstimated [taskC4] - |totalActual [taskC4] - totalEstimated [taskC4]|) /
        totalEstimated [taskC4]) * 100 := by
  have h : 0 < totalEstimated [taskC4] := by
    simp [totalEstimated, taskC4]
  exact ⟨h, c4_accuracy_formulas.2.2 [taskC4] h⟩

/-! ## Claim C5: analytics on an empty history -/

/-- The streak loop never counts anything when there are no sessions:
every day fails the `hasSessions` test, today is skipped and the next
day breaks the scan, leaving the accumulator untouched. -/
theorem streakGo_nil (today : Int) :
    ∀ fuel i acc, streakGo [] today fuel i acc = acc := by
  intro fuel
  induction fuel with
  | zero => intro i acc; rfl
  | succ m ih =>
      intro i acc
      unfold streakGo
      simp only [hasSessionsOn, List.any_nil, Bool.false_eq_true, if_false]
      split
      · exact ih (i + 1) acc
      · rfl

/-- With no sessions the streak is 0, whatever the clock says. -/
theorem currentStreak_nil (now : Int) : currentStreak [] now = 0 :=
  streakGo_nil (dayOf now) 30 0 0

/-- The empty store. -/
def emptyDB : DB := ⟨[], []⟩

/-- C5 (amended): on a user with no tasks and no sessions the summary is
all zeros and the task list empty, but the insight list is not empty: the
overall accuracy is 0, which triggers the below-50 warning, and the
peak-hour guard of the source is satisfied by every value, so the insight
list is exactly the low-accuracy warning followed by the 12 AM peak-hour
note. -/
theorem c5_empty_analytics (u : Nat) (now : Int) :
    (computeAnalytics emptyDB u now).summary =
      { totalPomodoros := 0, totalHoursStudied := 0, overallAccuracy := 0,
        currentStreak := 0, sessionsCount := 0 } ∧
    (computeAnalytics emptyDB u now).taskAccuracy = [] ∧
    (computeAnalytics emptyDB u now).insights = [msgLowAccuracy, msgPeakHour 0] := by
  have hsess : completedSessions emptyDB u = [] := rfl
  have htasks : userTasks emptyDB u = [] := rfl
  have hoa : overallAccuracy [] = 0 := by
    simp [overallAccuracy, totalEstimated, totalActual]
  have hfix : toFixed1 0 = 0 := by
    unfold toFixed1
    norm_num
  have hmph : mostProductiveHour [] = 0 := rfl
  refine ⟨?_, rfl, ?_⟩
  · simp only [computeAnalytics, hsess, htasks, List.map_nil, List.sum_nil,
      currentStreak_nil, List.length_nil, hoa]
    norm_num [toFixed1]
  · simp only [computeAnalytics, insightsOf, hsess, htasks, hoa,
      currentStreak_nil, hmph]
    norm_num [weeklyPomodoros, underestimatedSubjects, subjectsOf]

/-- Counterexample for C5 as stated: the insight list on an empty history
is not empty. -/
theorem c5_counterexample :
    (computeAnalytics emptyDB 1 (86400000 * 500)).insights ≠ [] := by decide

/-! ## Claim C6: the streak scan -/

/-- The streak scan as the spec words it: walk backward day by day from
today, for at most `fuel` days; a day with sessions adds one and
continues; a day without sessions is forgiven when it is today and ends
the scan otherwise. -/
def specStreakGo (sessions : List StudySession) (today : Int) : Nat → Int → Nat
  | 0, _ => 0
  | fuel + 1, d =>
      if hasSessionsOn sessions d then 1 + specStreakGo sessions today fuel (d - 1)
      else if d = today then specStreakGo sessions today fuel (d - 1)
      else 0

/-- The spec-worded streak: the backward scan from today, 30 days deep. -/
def specCurrentStreak (sessions : List StudySession) (now : Int) : Nat :=
  specStreakGo sessions (dayOf now) 30 (dayOf now)

/-- The loop of the source computes the same value as the spec-worded
backward scan, for any fuel, start index and accumulator. -/
theorem streakGo_eq_spec (sessions : List StudySession) (today : Int) :
    ∀ fuel i acc, streakGo sessions today fuel i acc
      = acc + specStreakGo sessions today fuel (today - (i : Int)) := by
  intro fuel
  induction fuel with
  | zero => intro i acc; rfl
  | succ m ih =>
      intro i acc
      have hcast : today - ((i + 1 : Nat) : Int) = today - (i : Int) - 1 := by
        push_cast
        ring
      unfold streakGo specStreakGo
      cases h : hasSessionsOn sessions (today - (i : Int)) with
      | true =>
          simp only [h, if_true]
          rw [ih (i + 1) (acc + 1), hcast]
          omega
      | false =>
          simp only [h, Bool.false_eq_true, if_false]
          split
          · rw [ih (i + 1) acc, hcast]
          · omega

/-- The sessions of the concrete streak example: completed sessions on
day 10 (today), day 9 and day 7, none on day 8. -/
def sessC6a : StudySession :=
  { id := 1, userId := 77, taskId := 1, startTime := 10 * 86400000 + 1000,
    endTime := some (10 * 86400000 + 1501000), pomodorosCompleted := 1,
    totalMinutes := 25, wasCompleted := true, notes := "" }

def sessC6b : StudySession :=
  { id := 2, userId := 77, taskId := 1, startTime := 9 * 86400000 + 5000,
    endTime := some (9 * 86400000 + 1505000), pomodorosCompleted := 1,
    totalMinutes := 25, wasCompleted := true, notes := "" }

def sessC6c : StudySession :=
  { id := 3, userId := 77, taskId := 1, startTime := 7 * 86400000,
    endTime := some (7 * 86400000 + 1500000), pomodorosCompleted := 1,
    totalMinutes := 25, wasCompleted := true, notes := "" }

def dbC6 : DB := ⟨[sessC6a, sessC6b, sessC6c], []⟩

/-- C6: the streak of the analytics route is the backward day-by-day
scan from today, 30 days deep, counting days with at least one completed
session, forgiving only a sessionless today; and on the concrete example
with sessions today, yesterday and 3 days ago (none 2 days ago) the
streak is 2. -/
theorem c6_streak (sessions : List StudySession) (now : Int) :
    currentStreak sessions now = specCurrentStreak sessions now ∧
    (computeAnalytics dbC6 77 (10 * 86400000 + 3600000)).summary.currentStreak = 2 := by
  constructor
  · unfold currentStreak specCurrentStreak
    rw [streakGo_eq_spec sessions (dayOf now) 30 0 0]
    norm_num
  · decide

/-! ## Claim C7: the 7-day daily breakdown -/

/-- Splitting the per-day sum over a cons. -/
theorem daySum_cons (s : StudySession) (rest : List StudySession) (d : Int) :
    daySum (s :: rest) d
      = (if dayOf s.startTime = d then sessionHours s else 0) + daySum rest d := by
  by_cases h : dayOf s.startTime = d
  · simp [daySum, List.filter_cons, h]
  · simp [daySum, List.filter_cons, h]

/-- Folding sessions into the daily mapping only adds, per entry, the
total hours of the sessions on that entry's date. -/
theorem foldl_addSessionDaily (sessions : List StudySession) :
    ∀ m : List (Int × ℚ), sessions.foldl addSessionDaily m
      = m.map (fun p => (p.1, p.2 + daySum sessions p.1)) := by
  induction sessions with
  | nil =>
      intro m
      simp [daySum]
  | cons s rest ih =>
      intro m
      have hfun : ((fun p : Int × ℚ => (p.1, p.2 + daySum rest p.1)) ∘
          (fun p : Int × ℚ =>
            if p.1 = dayOf s.startTime then (p.1, p.2 + sessionHours s) else p))
          = fun p : Int × ℚ => (p.1, p.2 + daySum (s :: rest) p.1) := by
        funext p
        by_cases hc : p.1 = dayOf s.startTime
        · simp [Function.comp, hc, daySum_cons]
          ring
        · simp [Function.comp, hc, daySum_cons, Ne.symm hc]
      rw [List.foldl_cons]
      rw [ih (addSessionDaily m s)]
      unfold addSessionDaily
      rw [List.map_map, hfun]

/-- The keys of the daily mapping are exactly the seven window days. -/
theorem dailyStudyTime_keys (sessions : List StudySession) (now : Int) :
    (dailyStudyTime sessions now).map Prod.fst = last7Days now := by
  unfold dailyStudyTime
  rw [foldl_addSessionDaily]
  rw [List.map_map, List.map_map]
  exact List.map_id' _

/-- C7: the daily breakdown has exactly the seven keys of the window,
today and the six preceding days, pairwise distinct; the value stored
under each key is the sum of `totalMinutes / 60` over the sessions of
that date (0 when there are none); and a session dated outside the
window changes no entry at all. -/
theorem c7_daily_breakdown (sessions : List StudySession) (now : Int) :
    (dailyStudyTime sessions now).map Prod.fst = last7Days now ∧
    last7Days now = [dayOf now - 6, dayOf now - 5, dayOf now - 4, dayOf now - 3,
      dayOf now - 2, dayOf now - 1, dayOf now] ∧
    (last7Days now).Nodup ∧
    (∀ d v, (d, v) ∈ dailyStudyTime sessions now → v = daySum sessions d) ∧
    (∀ s : StudySession, dayOf s.startTime ∉ last7Days now →
      dailyStudyTime (sessions ++ [s]) now = dailyStudyTime sessions now) := by
  have hrange : List.range 7 = [0, 1, 2, 3, 4, 5, 6] := rfl
  have hlist : last7Days now = [dayOf now - 6, dayOf now - 5, dayOf now - 4,
      dayOf now - 3, dayOf now - 2, dayOf now - 1, dayOf now] := by
    unfold last7Days
    rw [hrange]
    norm_num
  refine ⟨dailyStudyTime_keys sessions now, hlist, ?_, ?_, ?_⟩
  · rw [hlist]
    generalize dayOf now = k
    simp only [List.nodup_cons, List.mem_cons, List.mem_singleton, List.not_mem_nil,
      List.nodup_nil, and_true, not_or, not_false_eq_true]
    refine ⟨⟨?_, ?_, ?_, ?_, ?_, ?_⟩, ⟨?_, ?_, ?_, ?_, ?_⟩, ⟨?_, ?_, ?_, ?_⟩,
      ⟨?_, ?_, ?_⟩, ⟨?_, ?_⟩, ?_⟩ <;> omega
  · intro d v hmem
    unfold dailyStudyTime at hmem
    rw [foldl_addSessionDaily] at hmem
    simp only [List.map_map, List.mem_map, Function.comp] at hmem
    obtain ⟨d2, _, heq⟩ := hmem
    have h1 : d2 = d := congrArg Prod.fst heq
    have h2 : (0 : ℚ) + daySum sessions d2 = v := congrArg Prod.snd heq
    rw [h1] at h2
    rw [← h2, zero_add]
  · intro s hs
    show ((sessions ++ [s]).foldl addSessionDaily _) = dailyStudyTime sessions now
    rw [List.foldl_append, List.foldl_cons, List.foldl_nil]
    have hpt : ∀ p ∈ dailyStudyTime sessions now,
        (if p.1 = dayOf s.startTime then (p.1, p.2 + sessionHours s) else p) = p := by
      intro p hp
      rw [if_neg]
      intro hEq
      apply hs
      rw [← hEq]
      rw [← dailyStudyTime_keys sessions now]
      exact List.mem_map_of_mem Prod.fst hp
    calc addSessionDaily (dailyStudyTime sessions now) s
        = (dailyStudyTime sessions now).map (fun p => p) :=
          List.map_congr_left hpt
      _ = dailyStudyTime sessions now := List.map_id' _

/-- A concrete session dated far outside the 7-day window at now = 0. -/
def sessC7 : StudySession :=
  { id := 1, userId := 1, taskId := 1, startTime := 999 * 86400000,
    endTime := some (999 * 86400000 + 60000), pomodorosCompleted := 1,
    totalMinutes := 1, wasCompleted := true, notes := "" }

/-- Witness for C7 at a concrete input: an out-of-window session leaves
the (all-zero) daily mapping untouched. -/
theorem c7_witness :
    dayOf sessC7.startTime ∉ last7Days 0 ∧
    dailyStudyTime ([] ++ [sessC7]) 0 = dailyStudyTime [] 0 := by
  have h : dayOf sessC7.startTime ∉ last7Days 0 := by decide
  exact ⟨h, (c7_daily_breakdown [] 0).2.2.2.2 sessC7 h⟩

/-! ## Claim C9: the most productive hour -/

/-- The running maximum of the scan never decreases. -/
theorem mphFold_le (f : Int → ℚ) :
    ∀ (L : List Int) (acc : Int × ℚ), acc.2 ≤ (L.foldl (mphStep f) acc).2 := by
  intro L
  induction L with
  | nil => intro acc; exact le_refl _
  | cons h t ih =>
      intro acc
      rw [List.foldl_cons]
      refine le_trans ?_ (ih (mphStep f acc h))
      by_cases hc : acc.2 < f h
      · simp [mphStep, hc]
        exact le_of_lt hc
      · simp [mphStep, hc]

/-- Every scanned key's value is bounded by the final maximum. -/
theorem mphFold_mem_le (f : Int → ℚ) :
    ∀ (L : List Int) (acc : Int × ℚ) (x : Int), x ∈ L →
      f x ≤ (L.foldl (mphStep f) acc).2 := by
  intro L
  induction L with
  | nil => intro acc x hx; exact absurd hx (List.not_mem_nil x)
  | cons h t ih =>
      intro acc x hx
      rw [List.foldl_cons]
      rcases List.mem_cons.mp hx with rfl | hxt
      · refine le_trans ?_ (mphFold_le f t (mphStep f acc x))
        by_cases hc : acc.2 < f x
        · simp [mphStep, hc]
        · simp [mphStep, hc]
          exact le_of_not_lt hc
      · exact ih (mphStep f acc h) x hxt

/-- The scan either leaves the accumulator untouched or ends on a
scanned key whose value it stores, strictly above the initial maximum. -/
theorem mphFold_progress (f : Int → ℚ) :
    ∀ (L : List Int) (acc : Int × ℚ),
      L.foldl (mphStep f) acc = acc ∨
        (acc.2 < (L.foldl (mphStep f) acc).2 ∧
          (L.foldl (mphStep f) acc).1 ∈ L ∧
          f (L.foldl (mphStep f) acc).1 = (L.foldl (mphStep f) acc).2) := by
  intro L
  induction L with
  | nil => intro acc; exact Or.inl rfl
  | cons h t ih =>
      intro acc
      rw [List.foldl_cons]
      by_cases hc : acc.2 < f h
      · have hstep : mphStep f acc h = (h, f h) := by simp [mphStep, hc]
        rw [hstep]
        rcases ih (h, f h) with heq | ⟨hlt, hmem, hval⟩
        · rw [heq]
          exact Or.inr ⟨hc, List.mem_cons_self h t, rfl⟩
        · exact Or.inr ⟨lt_trans hc hlt, List.mem_cons_of_mem h hmem, hval⟩
      · have hstep : mphStep f acc h = acc := by simp [mphStep, hc]
        rw [hstep]
        rcases ih acc with heq | ⟨hlt, hmem, hval⟩
        · exact Or.inl heq
        · exact Or.inr ⟨hlt, List.mem_cons_of_mem h hmem, hval⟩

/-- On a strictly ascending key list whose keys are at or above the
accumulator's key, every key strictly below the final key has a value
strictly below the final maximum: the scan keeps the first (lowest) key
attaining the maximum. -/
theorem mphFold_least (f : Int → ℚ) :
    ∀ (L : List Int) (acc : Int × ℚ), List.Sorted (· < ·) L →
      (∀ x ∈ L, acc.1 ≤ x) →
      ∀ x ∈ L, x < (L.foldl (mphStep f) acc).1 →
        f x < (L.foldl (mphStep f) acc).2 := by
  intro L
  induction L with
  | nil => intro acc _ _ x hx; exact absurd hx (List.not_mem_nil x)
  | cons h t ih =>
      intro acc hsort hlb x hx hlt
      rw [List.foldl_cons] at hlt ⊢
      have hsort2 : List.Sorted (· < ·) t := hsort.of_cons
      have hhd : ∀ y ∈ t, h < y := fun y hy => (List.sorted_cons.mp hsort).1 y hy
      rcases List.mem_cons.mp hx with rfl | hxt
      · by_cases hc : acc.2 < f x
        · have hstep : mphStep f acc x = (x, f x) := by simp [mphStep, hc]
          rw [hstep] at hlt ⊢
          rcases mphFold_progress f t (x, f x) with heq | ⟨hlt2, _, _⟩
          · rw [heq] at hlt
            exact absurd hlt (lt_irrefl x)
          · exact hlt2
        · have hstep : mphStep f acc x = acc := by simp [mphStep, hc]
          rw [hstep] at hlt ⊢
          rcases mphFold_progress f t acc with heq | ⟨hlt2, _, _⟩
          · rw [heq] at hlt
            exact absurd hlt (not_lt.mpr (hlb x (List.mem_cons_self x t)))
          · exact lt_of_le_of_lt (le_of_not_lt hc) hlt2
      · by_cases hc : acc.2 < f h
        · have hstep : mphStep f acc h = (h, f h) := by simp [mphStep, hc]
          rw [hstep] at hlt ⊢
          exact ih (h, f h) hsort2 (fun y hy => le_of_lt (hhd y hy)) x hxt hlt
        · have hstep : mphStep f acc h = acc := by simp [mphStep, hc]
          rw [hstep] at hlt ⊢
          exact ih acc hsort2
            (fun y hy => hlb y (List.mem_cons_of_mem h hy)) x hxt hlt

/-- The hour keys are strictly ascending (`Object.entries` enumerates
integer-like keys in ascending order). -/
theorem hourlyKeys_sorted (sessions : List StudySession) :
    List.Sorted (fun a b : Int => a < b) (hourlyKeys sessions) := by
  unfold hourlyKeys
  have h1 : List.Pairwise (fun a b : Int => a < b)
      ((List.range 24).map (fun n : Nat => (n : Int))) := by
    refine List.Pairwise.map (fun n : Nat => (n : Int)) ?_ (List.pairwise_lt_range 24)
    intro a b hab
    show (a : Int) < (b : Int)
    exact_mod_cast hab
  exact h1.filter _

/-- Every hour key is at or above 0, the initial accumulator key. -/
theorem hourlyKeys_nonneg (sessions : List StudySession) :
    ∀ x ∈ hourlyKeys sessions, ((0, (0 : ℚ)) : Int × ℚ).1 ≤ x := by
  intro x hx
  unfold hourlyKeys at hx
  have hx2 := List.mem_of_mem_filter hx
  obtain ⟨n, hn, heq⟩ := List.mem_map.mp hx2
  rw [← heq]
  show (0 : Int) ≤ (n : Int)
  exact_mod_cast Nat.zero_le n

/-- C9 (amended): every key of the hourly breakdown has its value
bounded by the scan's final maximum; when that maximum is not positive
(no data, or only zero-valued hours) the result is hour 0, whether or
not 0 is a key; when the maximum is positive the result is a key of the
breakdown attaining it, and every lower key has a strictly smaller
value, so the lowest tying hour wins. -/
theorem c9_most_productive_hour (sessions : List StudySession) :
    (∀ h ∈ hourlyKeys sessions, hourlyValue sessions h ≤ hourlyMax sessions) ∧
    (hourlyMax sessions ≤ 0 → mostProductiveHour sessions = 0) ∧
    (0 < hourlyMax sessions →
      mostProductiveHour sessions ∈ hourlyKeys sessions ∧
      hourlyValue sessions (mostProductiveHour sessions) = hourlyMax sessions ∧
      ∀ h ∈ hourlyKeys sessions, h < mostProductiveHour sessions →
        hourlyValue sessions h < hourlyMax sessions) := by
  refine ⟨?_, ?_, ?_⟩
  · intro h hh
    exact mphFold_mem_le (hourlyValue sessions) (hourlyKeys sessions) (0, 0) h hh
  · intro hmax
    rcases mphFold_progress (hourlyValue sessions) (hourlyKeys sessions) (0, 0)
      with heq | ⟨hlt, _, _⟩
    · exact congrArg Prod.fst heq
    · exact absurd (lt_of_lt_of_le hlt hmax) (lt_irrefl 0)
  · intro hpos
    rcases mphFold_progress (hourlyValue sessions) (hourlyKeys sessions) (0, 0)
      with heq | ⟨hlt, hmem, hval⟩
    · exfalso
      have h0 : hourlyMax sessions = 0 := congrArg Prod.snd heq
      rw [h0] at hpos
      exact lt_irrefl 0 hpos
    · refine ⟨hmem, hval, ?_⟩
      intro h hh hlt2
      exact mphFold_least (hourlyValue sessions) (hourlyKeys sessions) (0, 0)
        (hourlyKeys_sorted sessions) (hourlyKeys_nonneg sessions) h hh hlt2

/-- A completed session at hour 5 contributing 0 minutes. -/
def sessC9 : StudySession :=
  { id := 1, userId := 7, taskId := 1, startTime := 5 * 3600000,
    endTime := some (5 * 3600000 + 30000), pomodorosCompleted := 0,
    totalMinutes := 0, wasCompleted := true, notes := "" }

/-- Counterexample for C9 as stated: with a single zero-minute session
at hour 5, the hourly breakdown's only key is 5 (so the key with maximal
accumulated value is 5), yet the returned most productive hour is 0. -/
theorem c9_counterexample :
    mostProductiveHour [sessC9] = 0 ∧ hourlyKeys [sessC9] = [5] := by
  have hk : hourlyKeys [sessC9] = [5] := by decide
  have hv : hourlyValue [sessC9] 5 = 0 := by
    simp [hourlyValue, sessionHours, sessC9, hourOf]
  refine ⟨?_, hk⟩
  simp [mostProductiveHour, mphFold, hk, mphStep, hv]

/-- A completed session at hour 5 contributing a full hour. -/
def sessW9 : StudySession :=
  { id := 1, userId := 7, taskId := 1, startTime := 5 * 3600000,
    endTime := some (5 * 3600000 + 3600000), pomodorosCompleted := 2,
    totalMinutes := 60, wasCompleted := true, notes := "" }

/-- Witness for C9 (amended) at a concrete input with a positive
maximum. -/
theorem c9_witness :
    0 < hourlyMax [sessW9] ∧
    mostProductiveHour [sessW9] ∈ hourlyKeys [sessW9] ∧
    hourlyValue [sessW9] (mostProductiveHour [sessW9]) = hourlyMax [sessW9] := by
  have hk : hourlyKeys [sessW9] = [5] := by decide
  have hv : hourlyValue [sessW9] 5 = 1 := by
    simp [hourlyValue, sessionHours, sessW9, hourOf]
  have hpos : 0 < hourlyMax [sessW9] := by
    simp [hourlyMax, mphFold, hk, mphStep, hv]
  exact ⟨hpos, ((c9_most_productive_hour [sessW9]).2.2 hpos).1,
    ((c9_most_productive_hour [sessW9]).2.2 hpos).2.1⟩
